import Mathlib

/-!
# go-api: probe, counter and configuration contracts of `src/server.go`

A shallow embedding of the HTTP handlers and of the configuration section of
`main` in `src/server.go`.

* An `http.ResponseWriter` is a record of the header map, the status line (unset
  until the first `WriteHeader` or `Write`) and the body written so far.
* A handler is a function from the writer and the request (and whatever shared
  state or outside result it reads) to a `HandlerResult`: the writer it leaves
  behind and whether it returned or panicked.
* Results that come from outside the program (`os.Hostname`, `rand.Intn`,
  the SQL driver, the clock, the UUID generator) are arguments of the handler
  that consumes them.
* Go `int` arithmetic wraps; the width of `int` (32 or 64) is the argument
  `bits`.
* Output to stdout and to the logger is not part of the model.
-/

namespace GoApi

/-! ## net/http: requests and response writers -/

/-- The fields of `*http.Request` the handlers read: `r.Method`, `r.URL.Path`
and the parsed form behind `r.FormValue`. -/
structure Request where
  Method : String
  Path : String
  Form : List (String × String)
  deriving DecidableEq, Repr

/-- The `http.MethodGet` constant. -/
def MethodGet : String := "GET"

def StatusOK : Nat := 200
def StatusNotFound : Nat := 404
def StatusMethodNotAllowed : Nat := 405
def StatusInternalServerError : Nat := 500
def StatusServiceUnavailable : Nat := 503

/-- The `http.StatusText` table, on the codes this program passes to it. -/
def StatusText (code : Nat) : String :=
  if code = 200 then "OK"
  else if code = 404 then "Not Found"
  else if code = 405 then "Method Not Allowed"
  else if code = 500 then "Internal Server Error"
  else if code = 503 then "Service Unavailable"
  else ""

/-- The first value of `key` in the request form, `""` when there is none
(`r.FormValue`). -/
def Request.FormValue (r : Request) (key : String) : String :=
  match r.Form.lookup key with
  | some v => v
  | none => ""

/-- The state of an `http.ResponseWriter`: `status` is `none` until the header has
been written. -/
structure ResponseWriter where
  header : List (String × String)
  status : Option Nat
  body : String
  deriving DecidableEq, Repr

namespace ResponseWriter

/-- The writer the server hands to a handler. -/
def fresh : ResponseWriter := { header := [], status := none, body := "" }

/-- The call `w.Header().Set(key, value)`. -/
def setHeader (w : ResponseWriter) (key value : String) : ResponseWriter :=
  { w with header := (key, value) :: w.header.filter (fun p => p.1 ≠ key) }

/-- The call `w.WriteHeader(code)`: only the first call fixes the status, a later one
is superfluous and ignored. -/
def WriteHeader (w : ResponseWriter) (code : Nat) : ResponseWriter :=
  match w.status with
  | none => { w with status := some code }
  | some _ => w

/-- The call `w.Write(b)`: writes the header with status 200 first if it was not yet
written, then appends to the body. -/
def Write (w : ResponseWriter) (b : String) : ResponseWriter :=
  let w1 := w.WriteHeader StatusOK
  { w1 with body := w1.body ++ b }

/-- The call `fmt.Fprintln(w, s)`. -/
def Fprintln (w : ResponseWriter) (s : String) : ResponseWriter :=
  w.Write (s ++ "\n")

end ResponseWriter

/-- The helper `http.Error(w, error, code)`. -/
def httpError (w : ResponseWriter) (error : String) (code : Nat) : ResponseWriter :=
  let w1 := w.setHeader "Content-Type" "text/plain; charset=utf-8"
  let w2 := w1.setHeader "X-Content-Type-Options" "nosniff"
  let w3 := w2.WriteHeader code
  w3.Fprintln error

/-- What a handler call leaves behind: the writer, and whether the call panicked
instead of returning. -/
structure HandlerResult where
  w : ResponseWriter
  panicked : Bool
  deriving DecidableEq, Repr

/-- The handler returned normally. -/
def returned (w : ResponseWriter) : HandlerResult := { w := w, panicked := false }

/-- The handler panicked. -/
def panics (w : ResponseWriter) : HandlerResult := { w := w, panicked := true }

/-! ## Probe handlers -/

/-- The liveness handler `healthz` (server.go 119-131). -/
def healthz (w : ResponseWriter) (r : Request) : HandlerResult :=
  if r.Method = MethodGet then
    let w1 := w.setHeader "Content-Type" "text/plain; charset=utf-8"
    let w2 := w1.setHeader "X-Content-Type-Options" "nosniff"
    let w3 := w2.WriteHeader StatusOK
    returned (w3.Fprintln "OK")
  else
    returned (httpError w "Method not allowed" StatusMethodNotAllowed)

/-- The content of an `atomic.Value` as `readyz` reads it: `some b` when a `bool` is
stored, `none` when `Load()` yields something else (nothing stored yet), in which
case the type assertion `.(bool)` panics. -/
abbrev AtomicValue := Option Bool

/-- The readiness handler `readyz` (server.go 170-184). The argument `isReady` is
the `*atomic.Value`: `none` is the nil pointer. -/
def readyz (w : ResponseWriter) (r : Request) (isReady : Option AtomicValue) :
    HandlerResult :=
  if r.Method = MethodGet then
    match isReady with
    | none =>
      returned (httpError w (StatusText StatusServiceUnavailable) StatusServiceUnavailable)
    | some none => panics w
    | some (some false) =>
      returned (httpError w (StatusText StatusServiceUnavailable) StatusServiceUnavailable)
    | some (some true) =>
      let w1 := w.setHeader "Content-Type" "text/plain; charset=utf-8"
      let w2 := w1.setHeader "X-Content-Type-Options" "nosniff"
      let w3 := w2.WriteHeader StatusOK
      returned (w3.Fprintln "OK")
  else
    returned (httpError w "Method not allowed" StatusMethodNotAllowed)

/-! ## Shared counters -/

/-- Two's-complement wrap-around of a Go `int` that is `bits` wide. -/
def wrapInt (bits : Nat) (x : Int) : Int :=
  (x + 2 ^ (bits - 1)) % 2 ^ bits - 2 ^ (bits - 1)

/-- The conversion `strconv.Itoa`. -/
def Itoa (i : Int) : String := toString i

/-- Modelled from the spec: the Prometheus client library is not under src/; a
`CounterVec` with the single label `vendor` is the list of the label values that
have a counter, each with its count. -/
abbrev CounterVec := List (String × Nat)

/-- The count a scrape reports for label value `v`: 0 when `v` has no counter. -/
def CounterVec.value (m : CounterVec) (v : String) : Nat :=
  match m.lookup v with
  | some n => n
  | none => 0

/-- Modelled from the spec: `With(labels)` returns the counter of the label value,
creating it at zero if unseen. -/
def CounterVec.With (m : CounterVec) (v : String) : CounterVec :=
  match m.lookup v with
  | some _ => m
  | none => m ++ [(v, 0)]

/-- Modelled from the spec: `Inc()` on the counter of label value `v` adds 1 to it. -/
def CounterVec.Inc (m : CounterVec) (v : String) : CounterVec :=
  m.map (fun p => if p.1 = v then (p.1, p.2 + 1) else p)

/-- The function `RecordCurlError` (server.go 83-86), on the registry
`curlErrorCollector`. -/
def RecordCurlError (curlErrorCollector : CounterVec) (vendor : String) : CounterVec :=
  (curlErrorCollector.With vendor).Inc vendor

/-! ## Handlers -/

/-- The handler `checkRest` (server.go 68-81). `draw` is the result of `rand.Intn(2)`.
The second component lists the arguments of the `go RecordCurlError(..)` statements
the call executed: goroutines started, not yet run. -/
def checkRest (w : ResponseWriter) (r : Request) (draw : Fin 2) :
    HandlerResult × List String :=
  let vendor := r.FormValue "vendor"
  let err := decide (draw = 0)
  if err then
    (returned (w.Write "Failed to fetch"), [vendor])
  else
    (returned (w.Write "Vendor status: ok"), [])

/-- The section of `echoString` between `mutex.Lock()` and `mutex.Unlock()`
(server.go 106-109): the incremented counter and the writer with the report line. -/
def criticalSection (bits : Nat) (w : ResponseWriter) (counter : Int) :
    ResponseWriter × Int :=
  let counter1 := wrapInt bits (counter + 1)
  (w.Fprintln ("Requests: " ++ Itoa counter1), counter1)

/-- The handler `echoString` (server.go 90-116). `hostname` is the result of
`os.Hostname()` (`none`: it returned an error), `tm` the formatted current time,
`counter` the global request counter; the second component is the counter after
the call. -/
def echoString (bits : Nat) (hostname : Option String) (tm : String)
    (w : ResponseWriter) (r : Request) (counter : Int) : HandlerResult × Int :=
  match hostname with
  | none => (panics w, counter)
  | some name =>
    if r.Path ≠ "/" then
      (returned (httpError w (StatusText StatusNotFound) StatusNotFound), counter)
    else
      let w1 := w.setHeader "Content-Type" "text/plain; charset=utf-8"
      let w2 := w1.setHeader "X-Content-Type-Options" "nosniff"
      let w3 := w2.WriteHeader StatusOK
      let w4 := w3.Fprintln ("I am: " ++ name)
      let (w5, counter1) := criticalSection bits w4 counter
      (returned (w5.Write ("Time: " ++ tm ++ "\n")), counter1)

/-- The handler `uuid` (server.go 134-148). `id` is the outcome of `guuid.New()`:
`none` when it panics. -/
def uuid (w : ResponseWriter) (r : Request) (id : Option String) : HandlerResult :=
  if r.Method = MethodGet then
    let w1 := w.setHeader "Content-Type" "application/json;"
    let w2 := w1.setHeader "X-Content-Type-Options" "nosniff"
    match id with
    | none => panics w2
    | some s =>
      let w3 := w2.WriteHeader StatusOK
      returned (w3.Fprintln s)
  else
    returned (httpError w "Method not allowed" StatusMethodNotAllowed)

/-- The handler `printJSONReq` (server.go 155-167): on GET it only logs. -/
def printJSONReq (w : ResponseWriter) (r : Request) : HandlerResult :=
  if r.Method = MethodGet then
    returned w
  else
    returned (httpError w "Method not allowed" StatusMethodNotAllowed)

/-! ## The album listing -/

structure Album where
  ID : Int
  Title : String
  Artist : String
  Year : Int
  deriving DecidableEq, Repr

structure dbDetails where
  dbHost : String
  dbName : String
  dbPwd : String
  dbUser : String
  deriving DecidableEq, Repr

/-- The rows `results.Next()` walks through, each with the outcome of
`results.Scan`: `none` when the scan returns an error. -/
abbrev Rows := List (Option Album)

/-- The database as `listAlbums` sees it. `sqlOpen dbURL` is the outcome of
`sql.Open("mysql", dbURL)`: `none` when it returns an error (and a nil handle),
otherwise the outcome of `db.Query("select * from albums")` on the handle, again
`none` when it returns an error (and nil rows). -/
structure Database where
  sqlOpen : String → Option (Option Rows)

/-- The format `fmt.Sprintf("%s:%s@tcp(%s:3306)/%s", ..)` of `listAlbums`. -/
def dbURL (d : dbDetails) : String :=
  d.dbUser ++ ":" ++ d.dbPwd ++ "@tcp(" ++ d.dbHost ++ ":3306)/" ++ d.dbName

/-- The loop `for results.Next() { .. }` of `listAlbums`: a failed scan writes the
error response and the loop goes on. -/
def scanRows (w : ResponseWriter) : Rows → ResponseWriter
  | [] => w
  | none :: rest =>
    scanRows (httpError w "Error while retrieving albums" StatusInternalServerError) rest
  | some _ :: rest => scanRows w rest

/-- The handler `listAlbums` (server.go 202-234). None of the error branches
returns: after a failed `sql.Open` the handle is nil and `db.Query` panics, after a
failed query the rows are nil and `results.Next()` panics. -/
def listAlbums (database : Database) (w : ResponseWriter) (r : Request) (d : dbDetails) :
    HandlerResult :=
  if r.Method = MethodGet then
    let w1 :=
      if d.dbHost = "" ∨ d.dbName = "" ∨ d.dbPwd = "" ∨ d.dbUser = "" then
        httpError w "Error while retrieving albums" StatusInternalServerError
      else w
    match database.sqlOpen (dbURL d) with
    | none =>
      panics (httpError w1 "Error while retrieving albums" StatusInternalServerError)
    | some none =>
      panics (httpError w1 "Error while retrieving albums" StatusInternalServerError)
    | some (some results) => returned (scanRows w1 results)
  else
    returned (httpError w "Method not allowed" StatusMethodNotAllowed)

/-- The wrapper `panicRecovery` (server.go 249-265): the deferred function recovers
a panic of `h` and writes the error response; the wrapped handler then returns. -/
def panicRecovery (h : ResponseWriter → Request → HandlerResult)
    (w : ResponseWriter) (r : Request) : HandlerResult :=
  let res := h w r
  if res.panicked then
    returned (httpError res.w "Error while retrieving albums" StatusInternalServerError)
  else
    res

/-! ## Configuration: `main`, server.go 286-321 and 340-359 -/

/-- The conversion `strconv.Atoi` for an `int` that is `bits` wide: an optional sign
followed by one or more decimal digits, with the value in the range of `int`;
`none` is the error result. -/
def Atoi (bits : Nat) (s : String) : Option Int :=
  let cs := s.toList
  let neg := decide (cs.head? = some '-')
  let ds := if cs.head? = some '-' ∨ cs.head? = some '+' then cs.tail else cs
  if ds = [] ∨ ds.all Char.isDigit = false then none
  else
    let n : Nat := ds.foldl (fun acc c => 10 * acc + (c.toNat - '0'.toNat)) 0
    let v : Int := if neg then -(n : Int) else (n : Int)
    if -(2 ^ (bits - 1) : Int) ≤ v ∧ v < (2 ^ (bits - 1) : Int) then some v else none

/-- The function `os.Getenv` for a process environment given as a list of
`NAME=value` pairs: `""` for a variable that is not set. -/
def envOf (vars : List (String × String)) : String → String :=
  fun key => match vars.lookup key with
    | some v => v
    | none => ""

/-- The values of the four database flag variables (`*dbHflag`, `*dbUflag`,
`*dbPflag`, `*dbNflag`), each as it stands at its `if` in `main`. -/
structure FlagValues where
  dbHflag : String
  dbUflag : String
  dbPflag : String
  dbNflag : String
  deriving DecidableEq, Repr

/-- The assignments of `main` that build `d` (server.go 288-321). `Getenv` is
`os.Getenv`. The branch of the name flag assigns `dbPwd`, as in the source
(line 313). -/
def resolveDb (Getenv : String → String) (fv : FlagValues) : dbDetails :=
  let dbHost := Getenv "DB_HOST"
  let dbHost := if fv.dbHflag ≠ "" then fv.dbHflag else dbHost
  let dbUser := Getenv "DB_USER"
  let dbUser := if fv.dbUflag ≠ "" then fv.dbUflag else dbUser
  let dbPwd := Getenv "DB_PASSWORD"
  let dbPwd := if fv.dbPflag ≠ "" then fv.dbPflag else dbPwd
  let dbName := Getenv "DB_NAME"
  let dbPwd := if fv.dbNflag ≠ "" then fv.dbNflag else dbPwd
  { dbHost := dbHost, dbName := dbName, dbPwd := dbPwd, dbUser := dbUser }

/-- How `main` can stop before the server starts: `os.Exit(code)` or a panic. -/
inductive Abort where
  | exit (code : Nat)
  | panicked
  deriving DecidableEq, Repr

/-- The environment half of the port resolution (server.go 341-348), from the
initial `port = 8081`. -/
def portFromEnv (bits : Nat) (penv : String) : Except Abort Int :=
  if penv ≠ "" then
    match Atoi bits penv with
    | some eport => .ok eport
    | none => .error Abort.panicked
  else .ok 8081

/-- The flag half of the port resolution (server.go 350-358). -/
def portFromFlag (bits : Nat) (port : Int) (pflag : String) : Except Abort Int :=
  if pflag ≠ "" then
    match Atoi bits pflag with
    | some cport => .ok cport
    | none => .error Abort.panicked
  else .ok port

/-- Splits `name` or `name=value` at the first `=` that is not the first character
(the loop of `parseOne` in Go's package flag). -/
def splitName : List Char → List Char × Option (List Char)
  | [] => ([], none)
  | c :: t =>
    match t.span (fun x => x ≠ '=') with
    | (a, []) => (c :: a, none)
    | (a, _ :: v) => (c :: a, some v)

/-- The value of flag `name` among the values set so far; every flag of `main` has
the default `""`. -/
def flagValue (vals : List (String × String)) (name : String) : String :=
  match vals.lookup name with
  | some v => v
  | none => ""

/-- How `parseOne` of Go's package flag reads one command-line argument: `stop` for
an argument that is not a flag and for the terminator `--`, `bad` for bad flag
syntax, else the flag name with the value given after `=`, if any. -/
inductive ArgKind where
  | stop
  | bad
  | flag (name : String) (value : Option String)
  deriving DecidableEq, Repr

/-- The syntax analysis at the head of `parseOne`. -/
def classifyArg (s : String) : ArgKind :=
  match s.toList with
  | '-' :: c1 :: t =>
    if c1 = '-' ∧ t = [] then ArgKind.stop
    else
      let name := if c1 = '-' then t else c1 :: t
      if name = [] ∨ name.head? = some '-' ∨ name.head? = some '=' then ArgKind.bad
      else
        match splitName name with
        | (nm, some v) => ArgKind.flag (String.mk nm) (some (String.mk v))
        | (nm, none) => ArgKind.flag (String.mk nm) none
  | _ => ArgKind.stop

/-- The call `flag.Parse()` of Go's package flag on the command-line arguments, for
string flags only, with the `ExitOnError` policy of `flag.CommandLine`. `formal`
holds the names defined so far, `vals` the values set so far, `pending` a flag that
still waits for its value in the next argument. Parsing stops at the first argument
that is not a flag and at `--`; bad syntax, a missing value and an undefined flag
exit with status 2 (status 0 for an undefined `-h` or `-help`). -/
def flagParse (formal : List String) :
    List (String × String) → Option String → List String →
      Except Abort (List (String × String))
  | _, some _, [] => .error (Abort.exit 2)
  | vals, some name, v :: rest => flagParse formal ((name, v) :: vals) none rest
  | vals, none, [] => .ok vals
  | vals, none, s :: rest =>
    match classifyArg s with
    | ArgKind.stop => .ok vals
    | ArgKind.bad => .error (Abort.exit 2)
    | ArgKind.flag nm value =>
      if nm ∈ formal then
        match value with
        | some v => flagParse formal ((nm, v) :: vals) none rest
        | none => flagParse formal vals (some nm) rest
      else if nm = "help" ∨ nm = "h" then .error (Abort.exit 0)
      else .error (Abort.exit 2)

/-- What `main` has resolved when it reaches `ListenAndServe`. -/
structure Config where
  d : dbDetails
  port : Int
  deriving DecidableEq, Repr

/-- The configuration section of `main` on the environment `Getenv` and the
command-line arguments `args` (`os.Args[1:]`): every `flag.Parse()` runs on the
whole command line with the flags defined up to that line. -/
def mainConfig (bits : Nat) (Getenv : String → String) (args : List String) :
    Except Abort Config := do
  let vals ← flagParse ["db-host"] [] none args
  let dbHflag := flagValue vals "db-host"
  let vals ← flagParse ["db-host", "db-user"] vals none args
  let dbUflag := flagValue vals "db-user"
  let vals ← flagParse ["db-host", "db-user", "db-password"] vals none args
  let dbPflag := flagValue vals "db-password"
  let vals ← flagParse ["db-host", "db-user", "db-password", "db-name"] vals none args
  let dbNflag := flagValue vals "db-name"
  let d := resolveDb Getenv
    { dbHflag := dbHflag, dbUflag := dbUflag, dbPflag := dbPflag, dbNflag := dbNflag }
  let port ← portFromEnv bits (Getenv "PORT")
  let vals ← flagParse ["db-host", "db-user", "db-password", "db-name", "port"] vals none args
  let port ← portFromFlag bits port (flagValue vals "port")
  return { d := d, port := port }

/-! ## The running server -/

/-- Modelled from the spec: the handler `promhttp.Handler()` registered at
`/metrics` is library code, not under src/; it answers 200 with a snapshot line for
every label value that has a counter and changes nothing. -/
def metrics (w : ResponseWriter) (curlErrorCollector : CounterVec) : HandlerResult :=
  let w1 := w.WriteHeader StatusOK
  returned (curlErrorCollector.foldl
    (fun acc p => acc.Write
      ("error_curl_total\x7bvendor=\"" ++ p.1 ++ "\"\x7d " ++ toString p.2 ++ "\n")) w1)

/-- The state the handlers and background goroutines share: the global `counter`,
the `isReady` pointer of `main`, the registry `curlErrorCollector`, and the
arguments of the `go RecordCurlError(..)` goroutines started but not yet run. -/
structure ServerState where
  counter : Int
  isReady : Option AtomicValue
  curlErrorCollector : CounterVec
  goroutines : List String

/-- The state when the server starts to listen: `main` has stored `false` in
`isReady` (server.go 328-329). -/
def ServerState.init : ServerState :=
  { counter := 0, isReady := some (some false), curlErrorCollector := [], goroutines := [] }

/-- One atomic step of the running server: a request served by the handler
registered for it in `main`, together with the outside results the handler
consumes; the `isReady.Store(true)` of the warm-up goroutine; or the run of the
`i`-th started `RecordCurlError` goroutine. -/
inductive Event where
  | echoString (r : Request) (hostname : Option String) (tm : String)
  | healthz (r : Request)
  | uuid (r : Request) (id : Option String)
  | printJSONReq (r : Request)
  | readyz (r : Request)
  | checkRest (r : Request) (draw : Fin 2)
  | getAlbums (r : Request) (database : Database)
  | metrics (r : Request)
  | timer
  | goroutine (i : Nat)

/-- The effect of one event: the next state and, for a request, what the handler
left behind on a fresh writer. `d` is the `dbDetails` value `main` built. -/
def step (bits : Nat) (d : dbDetails) (s : ServerState) :
    Event → ServerState × Option HandlerResult
  | .echoString r hostname tm =>
    let (res, counter1) := echoString bits hostname tm ResponseWriter.fresh r s.counter
    ({ s with counter := counter1 }, some res)
  | .healthz r => (s, some (healthz ResponseWriter.fresh r))
  | .uuid r id => (s, some (uuid ResponseWriter.fresh r id))
  | .printJSONReq r => (s, some (printJSONReq ResponseWriter.fresh r))
  | .readyz r => (s, some (readyz ResponseWriter.fresh r s.isReady))
  | .checkRest r draw =>
    let (res, started) := checkRest ResponseWriter.fresh r draw
    ({ s with goroutines := s.goroutines ++ started }, some res)
  | .getAlbums r database =>
    (s, some (panicRecovery (fun w r => listAlbums database w r d) ResponseWriter.fresh r))
  | .metrics _ => (s, some (metrics ResponseWriter.fresh s.curlErrorCollector))
  | .timer => ({ s with isReady := some (some true) }, none)
  | .goroutine i =>
    match s.goroutines.get? i with
    | some vendor =>
      ({ s with curlErrorCollector := RecordCurlError s.curlErrorCollector vendor,
                goroutines := s.goroutines.eraseIdx i }, none)
    | none => (s, none)

/-- The state after a sequence of events. -/
def run (bits : Nat) (d : dbDetails) (s : ServerState) : List Event → ServerState
  | [] => s
  | ev :: evs => run bits d (step bits d s ev).1 evs

/-- The response to the request `ev` served in state `s`. -/
def respond (bits : Nat) (d : dbDetails) (s : ServerState) (ev : Event) :
    Option HandlerResult :=
  (step bits d s ev).2

/-- The status line of a response, `none` when there is no response or no header was
written. -/
def statusOf : Option HandlerResult → Option Nat
  | some res => res.w.status
  | none => none

/-- Whether `ev` is a `/checkrest` call for vendor `v` that answered with the
failure body. -/
def failedCall (v : String) : Event → Bool
  | .checkRest r draw =>
    decide (r.FormValue "vendor" = v) &&
      decide ((checkRest ResponseWriter.fresh r draw).1.w.body = "Failed to fetch")
  | _ => false

/-- The number of `/checkrest` calls for vendor `v` in `evs` that answered with the
failure body. -/
def failedCalls (v : String) (evs : List Event) : Nat :=
  evs.countP (failedCall v)

/-- One request to `/` whose `os.Hostname()` call succeeds with `name`. -/
structure EchoCall where
  r : Request
  name : String
  tm : String

/-- The calls of `echoString` in `calls`, executed one after the other in list order
from the counter value `counter`: for each call what it left behind and the counter
value right after it, and the final counter. The list order is the order in which
the calls pass through the section guarded by `mutex`. -/
def echoCalls (bits : Nat) : List EchoCall → Int → List (HandlerResult × Int) × Int
  | [], counter => ([], counter)
  | q :: rest, counter =>
    let out := echoString bits (some q.name) q.tm ResponseWriter.fresh q.r counter
    let (outs, final) := echoCalls bits rest out.2
    (out :: outs, final)

/-- The largest counter value any call reported, 0 when there was no call. -/
def maxReported (outs : List (HandlerResult × Int)) : Int :=
  outs.foldl (fun m out => max m out.2) 0

/-! ## Probe contracts -/

/-- C1: in every server state (whatever the readiness pointer and flag, the request
counter and the error counters hold) a request to `healthz` leaves the state as it
is, returns normally, and answers 200 when the method is GET and 405 otherwise. -/
theorem healthz_status_independent_of_state (bits : Nat) (d : dbDetails)
    (s : ServerState) (r : Request) :
    step bits d s (.healthz r) = (s, some (healthz ResponseWriter.fresh r)) ∧
    (healthz ResponseWriter.fresh r).panicked = false ∧
    (healthz ResponseWriter.fresh r).w.status =
      some (if r.Method = "GET" then 200 else 405) := by
  refine ⟨rfl, ?_, ?_⟩
  · unfold healthz
    split <;> rfl
  · unfold healthz
    by_cases h : r.Method = "GET"
    · have h1 : r.Method = MethodGet := h
      rw [if_pos h1, if_pos h]
      rfl
    · have h1 : ¬ r.Method = MethodGet := h
      rw [if_neg h1, if_neg h]
      rfl

/-- C2: on a fresh writer `readyz` answers 200 exactly when the method is GET, the
pointer is non-nil and the stored flag is true; 503 when the method is GET and the
pointer is nil or the stored flag is false; 405 for every other method. -/
theorem readyz_status (r : Request) (isReady : Option AtomicValue) :
    ((readyz ResponseWriter.fresh r isReady).w.status = some 200 ↔
      (r.Method = "GET" ∧ isReady = some (some true))) ∧
    (r.Method = "GET" → (isReady = none ∨ isReady = some (some false)) →
      (readyz ResponseWriter.fresh r isReady).w.status = some 503) ∧
    (r.Method ≠ "GET" → (readyz ResponseWriter.fresh r isReady).w.status = some 405) := by
  by_cases h : r.Method = "GET"
  · have h1 : r.Method = MethodGet := h
    refine ⟨?_, ?_, fun hn => absurd h hn⟩
    · unfold readyz
      rw [if_pos h1]
      rcases isReady with _ | _ | _ | _ <;> simp [h] <;> decide
    · intro _ hr
      unfold readyz
      rw [if_pos h1]
      rcases hr with hr | hr <;> subst hr <;> rfl
  · have h1 : ¬ r.Method = MethodGet := h
    refine ⟨?_, fun hg => absurd hg h, ?_⟩
    · unfold readyz
      rw [if_neg h1]
      simp [h]
      decide
    · intro _
      unfold readyz
      rw [if_neg h1]
      rfl

/-- C2, at concrete requests: a GET with the flag true is answered 200, a GET with a
nil pointer 503, a POST 405. -/
theorem readyz_status_witness :
    (readyz ResponseWriter.fresh ⟨"GET", "/readyz", []⟩ (some (some true))).w.status
      = some 200 ∧
    (readyz ResponseWriter.fresh ⟨"GET", "/readyz", []⟩ none).w.status = some 503 ∧
    (readyz ResponseWriter.fresh ⟨"POST", "/readyz", []⟩ (some (some true))).w.status
      = some 405 :=
  ⟨(readyz_status ⟨"GET", "/readyz", []⟩ (some (some true))).1.mpr ⟨rfl, rfl⟩,
   (readyz_status ⟨"GET", "/readyz", []⟩ none).2.1 rfl (Or.inl rfl),
   (readyz_status ⟨"POST", "/readyz", []⟩ (some (some true))).2.2 (by decide)⟩

/-! ## The readiness flag -/

/-- Every step leaves `isReady` as it is, except the timer, which stores true. -/
lemma step_isReady (bits : Nat) (d : dbDetails) (s : ServerState) (ev : Event) :
    (step bits d s ev).1.isReady = s.isReady ∨
      (ev = Event.timer ∧ (step bits d s ev).1.isReady = some (some true)) := by
  cases ev with
  | timer => exact Or.inr ⟨rfl, rfl⟩
  | goroutine i =>
    left
    simp only [step]
    split <;> rfl
  | _ => exact Or.inl rfl

/-- Once the flag is true it is true after every further sequence of events. -/
lemma run_isReady_true (bits : Nat) (d : dbDetails) (evs : List Event) :
    ∀ s : ServerState, s.isReady = some (some true) →
      (run bits d s evs).isReady = some (some true) := by
  induction evs with
  | nil => intro s h; exact h
  | cons ev evs ih =>
    intro s h
    apply ih
    rcases step_isReady bits d s ev with h1 | ⟨_, h1⟩
    · rw [h1]; exact h
    · exact h1

/-- A sequence of events without the timer leaves the flag as it is. -/
lemma run_isReady_of_no_timer (bits : Nat) (d : dbDetails) (evs : List Event) :
    ∀ s : ServerState, Event.timer ∉ evs → (run bits d s evs).isReady = s.isReady := by
  induction evs with
  | nil => intro s _; rfl
  | cons ev evs ih =>
    intro s h
    have hev : ev ≠ Event.timer := fun e => h (by simp [e])
    have hrest : Event.timer ∉ evs := fun e => h (List.mem_cons_of_mem _ e)
    show (run bits d (step bits d s ev).1 evs).isReady = s.isReady
    rw [ih _ hrest]
    rcases step_isReady bits d s ev with h1 | ⟨h1, _⟩
    · exact h1
    · exact absurd h1 hev

/-- The state after `pre ++ post` is the state after `post` from the state after
`pre`. -/
lemma run_append (bits : Nat) (d : dbDetails) (pre post : List Event) :
    ∀ s : ServerState, run bits d s (pre ++ post) = run bits d (run bits d s pre) post := by
  induction pre with
  | nil => intro s; rfl
  | cons ev pre ih => intro s; exact ih _

/-- A GET on `readyz` answered 200 has found the flag true. -/
lemma readyz_ok_flag (r : Request) (isReady : Option AtomicValue)
    (h : (readyz ResponseWriter.fresh r isReady).w.status = some 200) :
    isReady = some (some true) := by
  unfold readyz at h
  split at h
  · rcases isReady with _ | _ | _ | _
    · exact absurd h (by decide)
    · exact absurd h (by decide)
    · exact absurd h (by decide)
    · rfl
  · exact absurd h (by decide)

/-- C3: the flag is false when the server starts; a step changes it only if it is the
timer, which stores true; once true it stays true along every sequence of events;
so a GET on `readyz` answered 200 is followed only by GETs on `readyz` answered
200, and every GET on `readyz` served before the first timer event is answered
503. -/
theorem isReady_monotone (bits : Nat) (d : dbDetails) :
    ServerState.init.isReady = some (some false) ∧
    (∀ (s : ServerState) (ev : Event),
      (step bits d s ev).1.isReady = s.isReady ∨
        (ev = Event.timer ∧ (step bits d s ev).1.isReady = some (some true))) ∧
    (∀ (s : ServerState) (evs : List Event), s.isReady = some (some true) →
      (run bits d s evs).isReady = some (some true)) ∧
    (∀ (pre mid : List Event) (r1 r2 : Request),
      r1.Method = "GET" → r2.Method = "GET" →
      statusOf (respond bits d (run bits d ServerState.init pre) (.readyz r1)) = some 200 →
      statusOf (respond bits d
        (run bits d ServerState.init (pre ++ Event.readyz r1 :: mid)) (.readyz r2))
        = some 200) ∧
    (∀ (pre : List Event) (r : Request), r.Method = "GET" → Event.timer ∉ pre →
      statusOf (respond bits d (run bits d ServerState.init pre) (.readyz r)) = some 503) := by
  refine ⟨rfl, step_isReady bits d, fun s evs => run_isReady_true bits d evs s, ?_, ?_⟩
  · intro pre mid r1 r2 _ h2 h
    have hflag : (run bits d ServerState.init pre).isReady = some (some true) :=
      readyz_ok_flag r1 _ h
    have hlater : (run bits d ServerState.init (pre ++ Event.readyz r1 :: mid)).isReady
        = some (some true) := by
      rw [run_append]
      exact run_isReady_true bits d _ _ hflag
    show (readyz ResponseWriter.fresh r2 _).w.status = some 200
    rw [hlater]
    have h2' : r2.Method = MethodGet := h2
    unfold readyz
    rw [if_pos h2']
    rfl
  · intro pre r hr hpre
    show (readyz ResponseWriter.fresh r _).w.status = some 503
    rw [run_isReady_of_no_timer bits d pre _ hpre]
    have hr' : r.Method = MethodGet := hr
    unfold readyz
    rw [if_pos hr']
    rfl

/-- C3, on a concrete run: two GETs before the timer are answered 503; after the
timer a GET is answered 200, and so is a GET that follows further traffic. -/
theorem isReady_monotone_witness :
    statusOf (respond 64 ⟨"h", "n", "p", "u"⟩
      (run 64 ⟨"h", "n", "p", "u"⟩ ServerState.init [Event.healthz ⟨"GET", "/healthz", []⟩])
      (.readyz ⟨"GET", "/readyz", []⟩)) = some 503 ∧
    statusOf (respond 64 ⟨"h", "n", "p", "u"⟩
      (run 64 ⟨"h", "n", "p", "u"⟩ ServerState.init
        ([Event.timer] ++ Event.readyz ⟨"GET", "/readyz", []⟩ ::
          [Event.checkRest ⟨"GET", "/checkrest", [("vendor", "acme")]⟩ 0, Event.goroutine 0]))
      (.readyz ⟨"GET", "/readyz", []⟩)) = some 200 :=
  ⟨(isReady_monotone 64 ⟨"h", "n", "p", "u"⟩).2.2.2.2
      [Event.healthz ⟨"GET", "/healthz", []⟩] ⟨"GET", "/readyz", []⟩ rfl
      (by simp),
   (isReady_monotone 64 ⟨"h", "n", "p", "u"⟩).2.2.2.1 [Event.timer]
      [Event.checkRest ⟨"GET", "/checkrest", [("vendor", "acme")]⟩ 0, Event.goroutine 0]
      ⟨"GET", "/readyz", []⟩ ⟨"GET", "/readyz", []⟩ rfl rfl rfl⟩

/-! ## The error counters -/

lemma lookup_cons_eq (k u : String) (n : Nat) (m : CounterVec) :
    List.lookup u ((k, n) :: m) = if u = k then some n else List.lookup u m := by
  by_cases h : u = k
  · subst h
    simp [List.lookup]
  · have hb : (u == k) = false := by simpa using h
    simp [List.lookup, hb, h]

lemma lookup_Inc_self (v : String) (m : CounterVec) :
    List.lookup v (CounterVec.Inc m v) = (List.lookup v m).map (fun n => n + 1) := by
  induction m with
  | nil => rfl
  | cons p m ih =>
    obtain ⟨k, n⟩ := p
    unfold CounterVec.Inc at ih ⊢
    by_cases h : k = v
    · subst h
      simp [lookup_cons_eq]
    · have h2 : ¬ v = k := fun e => h e.symm
      simp [lookup_cons_eq, h, h2, ih]

lemma lookup_Inc_other (u v : String) (huv : u ≠ v) (m : CounterVec) :
    List.lookup u (CounterVec.Inc m v) = List.lookup u m := by
  induction m with
  | nil => rfl
  | cons p m ih =>
    obtain ⟨k, n⟩ := p
    unfold CounterVec.Inc at ih ⊢
    by_cases h : k = v
    · subst h
      simp [lookup_cons_eq, huv, ih]
    · by_cases h3 : u = k
      · simp [lookup_cons_eq, h, h3]
      · simp [lookup_cons_eq, h, h3, ih]

lemma lookup_append_single (u v : String) (n : Nat) (m : CounterVec) :
    List.lookup u (m ++ [(v, n)]) =
      match List.lookup u m with
      | some k => some k
      | none => if u = v then some n else none := by
  induction m with
  | nil => simp [lookup_cons_eq]
  | cons p m ih =>
    obtain ⟨k, j⟩ := p
    by_cases h : u = k
    · simp [lookup_cons_eq, h]
    · simp [lookup_cons_eq, h, ih]

/-- The count of `v` after `RecordCurlError v` is one more than before. -/
lemma value_RecordCurlError_self (m : CounterVec) (v : String) :
    CounterVec.value (RecordCurlError m v) v = CounterVec.value m v + 1 := by
  unfold RecordCurlError CounterVec.value CounterVec.With
  rw [lookup_Inc_self]
  cases h : List.lookup v m with
  | none => simp [lookup_append_single, h]
  | some n => simp [h]

/-- The count of any other label is the same after `RecordCurlError v`. -/
lemma value_RecordCurlError_other (m : CounterVec) (u v : String) (huv : u ≠ v) :
    CounterVec.value (RecordCurlError m v) u = CounterVec.value m u := by
  unfold RecordCurlError CounterVec.value CounterVec.With
  rw [lookup_Inc_other u v huv]
  cases h : List.lookup v m with
  | none =>
    simp only [lookup_append_single, if_neg huv]
    cases List.lookup u m <;> rfl
  | some n => rfl

/-- C4: `RecordCurlError v` raises the count of `v` by exactly 1, to 1 when `v` had no
counter yet, leaves the count of every other label as it was, and lowers no count. -/
theorem RecordCurlError_increments (m : CounterVec) (v : String) :
    CounterVec.value (RecordCurlError m v) v = CounterVec.value m v + 1 ∧
    (List.lookup v m = none → CounterVec.value (RecordCurlError m v) v = 1) ∧
    (∀ u : String, u ≠ v →
      CounterVec.value (RecordCurlError m v) u = CounterVec.value m u) ∧
    (∀ u : String, CounterVec.value m u ≤ CounterVec.value (RecordCurlError m v) u) := by
  refine ⟨value_RecordCurlError_self m v, ?_,
    fun u huv => value_RecordCurlError_other m u v huv, ?_⟩
  · intro h
    rw [value_RecordCurlError_self]
    simp [CounterVec.value, h]
  · intro u
    by_cases huv : u = v
    · subst huv
      rw [value_RecordCurlError_self]
      exact Nat.le_succ _
    · rw [value_RecordCurlError_other m u v huv]

/-- C4, on a concrete registry: the unseen label "acme" gets count 1 and the count of
"globex" stays 4. -/
theorem RecordCurlError_increments_witness :
    CounterVec.value (RecordCurlError [("globex", 4)] "acme") "acme" = 1 ∧
    CounterVec.value (RecordCurlError [("globex", 4)] "acme") "globex"
      = CounterVec.value [("globex", 4)] "globex" :=
  ⟨(RecordCurlError_increments [("globex", 4)] "acme").2.1 (by decide),
   (RecordCurlError_increments [("globex", 4)] "acme").2.2.1 "globex" (by decide)⟩

/-! ## The failure simulator -/

/-- What `checkRest` does on a fresh writer, by the draw. -/
lemma checkRest_fresh (r : Request) (draw : Fin 2) :
    checkRest ResponseWriter.fresh r draw =
      if draw = 0 then
        (returned { header := [], status := some 200, body := "Failed to fetch" },
          [r.FormValue "vendor"])
      else
        (returned { header := [], status := some 200, body := "Vendor status: ok" }, []) := by
  fin_cases draw <;> rfl

/-- Removing the goroutine at position `i` removes one occurrence of its argument. -/
lemma count_eraseIdx (v x : String) :
    ∀ (gs : List String) (i : Nat), gs.get? i = some x →
      (gs.eraseIdx i).count v + (if x = v then 1 else 0) = gs.count v := by
  intro gs
  induction gs with
  | nil => intro i h; simp at h
  | cons g gs ih =>
    intro i h
    cases i with
    | zero =>
      simp only [List.get?] at h
      have hg : g = x := Option.some.inj h
      subst hg
      by_cases hv : g = v
      · simp [List.eraseIdx, hv]
      · simp [List.eraseIdx, List.count_cons, hv]
    | succ i =>
      simp only [List.get?] at h
      have := ih i h
      simp only [List.eraseIdx, List.count_cons]
      omega

/-- The balance of one step: the count of `v` plus the started goroutines for `v`
grows by one exactly at a failed call for `v`. -/
lemma step_balance (bits : Nat) (d : dbDetails) (v : String) (s : ServerState)
    (ev : Event) :
    (step bits d s ev).1.curlErrorCollector.value v + (step bits d s ev).1.goroutines.count v
      = s.curlErrorCollector.value v + s.goroutines.count v
        + (if failedCall v ev = true then 1 else 0) := by
  cases ev with
  | checkRest r draw =>
    simp only [step, failedCall]
    have hd : draw = 0 ∨ draw = 1 := by fin_cases draw <;> simp
    rcases hd with hd | hd
    · subst hd
      have h2 : (checkRest ResponseWriter.fresh r 0).2 = [r.FormValue "vendor"] := rfl
      have hb : (checkRest ResponseWriter.fresh r 0).1.w.body = "Failed to fetch" := rfl
      by_cases hv : r.FormValue "vendor" = v
      · simp [h2, hb, hv]
        omega
      · simp [h2, hb, hv, List.count_cons, List.count_append]
    · subst hd
      have h2 : (checkRest ResponseWriter.fresh r 1).2 = [] := rfl
      have hb : (checkRest ResponseWriter.fresh r 1).1.w.body = "Vendor status: ok" := rfl
      simp [h2, hb]
  | goroutine i =>
    simp only [step, failedCall]
    cases h : s.goroutines.get? i with
    | none => simp
    | some x =>
      have hc := count_eraseIdx v x s.goroutines i h
      by_cases hv : x = v
      · subst hv
        simp only [if_true] at hc
        simp only [value_RecordCurlError_self]
        simp
        omega
      · have hv' : v ≠ x := fun e => hv e.symm
        simp only [if_neg hv] at hc
        simp only [value_RecordCurlError_other _ v x hv']
        simp
        omega
  | _ => simp [step, failedCall]

/-- The balance along a run. -/
lemma run_balance (bits : Nat) (d : dbDetails) (v : String) (evs : List Event) :
    ∀ s : ServerState,
      (run bits d s evs).curlErrorCollector.value v + (run bits d s evs).goroutines.count v
        = s.curlErrorCollector.value v + s.goroutines.count v + failedCalls v evs := by
  induction evs with
  | nil => intro s; simp [run, failedCalls]
  | cons ev evs ih =>
    intro s
    show (run bits d (step bits d s ev).1 evs).curlErrorCollector.value v
      + (run bits d (step bits d s ev).1 evs).goroutines.count v = _
    rw [ih, step_balance]
    unfold failedCalls
    rw [List.countP_cons]
    omega

/-- No step lowers a count. -/
lemma step_value_mono (bits : Nat) (d : dbDetails) (v : String) (s : ServerState)
    (ev : Event) :
    s.curlErrorCollector.value v ≤ (step bits d s ev).1.curlErrorCollector.value v := by
  cases ev with
  | goroutine i =>
    simp only [step]
    cases h : s.goroutines.get? i with
    | none => exact Nat.le_refl _
    | some x =>
      by_cases hv : v = x
      · subst hv
        simp only [value_RecordCurlError_self]
        exact Nat.le_succ _
      · simp only [value_RecordCurlError_other _ v x hv]
        exact Nat.le_refl _
  | _ => exact Nat.le_refl _

/-- No run lowers a count. -/
lemma run_value_mono (bits : Nat) (d : dbDetails) (v : String) (evs : List Event) :
    ∀ s : ServerState,
      s.curlErrorCollector.value v ≤ (run bits d s evs).curlErrorCollector.value v := by
  induction evs with
  | nil => intro s; exact Nat.le_refl _
  | cons ev evs ih =>
    intro s
    exact Nat.le_trans (step_value_mono bits d v s ev) (ih _)

/-- C5: a `checkRest` call whose draw is failure answers "Failed to fetch" and starts
exactly one `RecordCurlError` goroutine for its vendor, a call whose draw is success
answers "Vendor status: ok" and starts none. Along every sequence of events of the
running server the count of vendor `v` plus the number of started goroutines for `v`
that have not run yet is the number of calls for `v` answered with the failure body;
so the count never exceeds that number, equals it once no started goroutine is
left, and never decreases as the sequence goes on. -/
theorem checkRest_failures_counted (bits : Nat) (d : dbDetails) :
    (∀ (r : Request) (draw : Fin 2),
      checkRest ResponseWriter.fresh r draw =
        if draw = 0 then
          (returned { header := [], status := some 200, body := "Failed to fetch" },
            [r.FormValue "vendor"])
        else
          (returned { header := [], status := some 200, body := "Vendor status: ok" }, [])) ∧
    (∀ (evs : List Event) (v : String),
      (run bits d ServerState.init evs).curlErrorCollector.value v
        + (run bits d ServerState.init evs).goroutines.count v = failedCalls v evs) ∧
    (∀ (evs : List Event) (v : String),
      (run bits d ServerState.init evs).curlErrorCollector.value v ≤ failedCalls v evs) ∧
    (∀ (evs : List Event) (v : String),
      (run bits d ServerState.init evs).goroutines = [] →
      (run bits d ServerState.init evs).curlErrorCollector.value v = failedCalls v evs) ∧
    (∀ (evs more : List Event) (v : String),
      (run bits d ServerState.init evs).curlErrorCollector.value v
        ≤ (run bits d ServerState.init (evs ++ more)).curlErrorCollector.value v) := by
  have hbal : ∀ (evs : List Event) (v : String),
      (run bits d ServerState.init evs).curlErrorCollector.value v
        + (run bits d ServerState.init evs).goroutines.count v = failedCalls v evs := by
    intro evs v
    have h := run_balance bits d v evs ServerState.init
    have h0 : ServerState.init.curlErrorCollector.value v = 0 := rfl
    have h1 : ServerState.init.goroutines.count v = 0 := rfl
    omega
  refine ⟨checkRest_fresh, hbal, ?_, ?_, ?_⟩
  · intro evs v
    have := hbal evs v
    omega
  · intro evs v hg
    have := hbal evs v
    rw [hg] at this
    simpa using this
  · intro evs more v
    rw [run_append]
    exact run_value_mono bits d v more _

/-- C5, on a concrete run: three calls, two of them failed for "acme" and "globex",
and both started goroutines run afterwards; the count of "acme" is then the one
failed call for "acme". -/
theorem checkRest_failures_counted_witness :
    (run 64 ⟨"h", "n", "p", "u"⟩ ServerState.init
      [Event.checkRest ⟨"GET", "/checkrest", [("vendor", "acme")]⟩ 0,
       Event.checkRest ⟨"GET", "/checkrest", [("vendor", "acme")]⟩ 1,
       Event.checkRest ⟨"POST", "/checkrest", [("vendor", "globex")]⟩ 0,
       Event.goroutine 1, Event.goroutine 0]).goroutines = [] ∧
    (run 64 ⟨"h", "n", "p", "u"⟩ ServerState.init
      [Event.checkRest ⟨"GET", "/checkrest", [("vendor", "acme")]⟩ 0,
       Event.checkRest ⟨"GET", "/checkrest", [("vendor", "acme")]⟩ 1,
       Event.checkRest ⟨"POST", "/checkrest", [("vendor", "globex")]⟩ 0,
       Event.goroutine 1, Event.goroutine 0]).curlErrorCollector.value "acme"
      = failedCalls "acme"
        [Event.checkRest ⟨"GET", "/checkrest", [("vendor", "acme")]⟩ 0,
         Event.checkRest ⟨"GET", "/checkrest", [("vendor", "acme")]⟩ 1,
         Event.checkRest ⟨"POST", "/checkrest", [("vendor", "globex")]⟩ 0,
         Event.goroutine 1, Event.goroutine 0] ∧
    failedCalls "acme"
        [Event.checkRest ⟨"GET", "/checkrest", [("vendor", "acme")]⟩ 0,
         Event.checkRest ⟨"GET", "/checkrest", [("vendor", "acme")]⟩ 1,
         Event.checkRest ⟨"POST", "/checkrest", [("vendor", "globex")]⟩ 0,
         Event.goroutine 1, Event.goroutine 0] = 1 :=
  ⟨rfl, (checkRest_failures_counted 64 ⟨"h", "n", "p", "u"⟩).2.2.2.1 _ "acme" rfl, rfl⟩

/-! ## The echo handler and the request counter -/

/-- A value in the range of a `bits`-wide `int` is left as it is by the wrap. -/
lemma wrapInt_of_inRange (bits : Nat) (x : Int) (h0 : 0 ≤ x)
    (h1 : x < 2 ^ (bits - 1)) (hb : 1 ≤ bits) : wrapInt bits x = x := by
  unfold wrapInt
  have hp : (2 : Int) ^ bits = 2 * 2 ^ (bits - 1) := by
    obtain ⟨k, rfl⟩ : ∃ k, bits = k + 1 := ⟨bits - 1, by omega⟩
    simp [pow_succ, mul_comm]
  have hpos : (0 : Int) < 2 ^ (bits - 1) := by positivity
  rw [hp, Int.emod_eq_of_lt (by omega) (by omega)]
  omega

/-- Wrapping before an addition does not change the wrapped sum. -/
lemma wrapInt_add_wrapInt (bits : Nat) (x k : Int) :
    wrapInt bits (wrapInt bits x + k) = wrapInt bits (x + k) := by
  unfold wrapInt
  have e : (x + 2 ^ (bits - 1)) % 2 ^ bits - 2 ^ (bits - 1) + k + 2 ^ (bits - 1)
      = (x + 2 ^ (bits - 1)) % 2 ^ bits + k := by ring
  have e2 : x + k + 2 ^ (bits - 1) = (x + 2 ^ (bits - 1)) + k := by ring
  rw [e, e2, Int.add_emod ((x + 2 ^ (bits - 1)) % 2 ^ bits), Int.emod_emod_of_dvd _ dvd_rfl,
    ← Int.add_emod]

/-- What `echoString` does on a fresh writer for the path `/` when `os.Hostname()`
succeeds. -/
lemma echoString_root (bits : Nat) (name tm : String) (r : Request) (counter : Int)
    (hp : r.Path = "/") :
    echoString bits (some name) tm ResponseWriter.fresh r counter =
      (returned
        { header := [("X-Content-Type-Options", "nosniff"),
                     ("Content-Type", "text/plain; charset=utf-8")],
          status := some 200,
          body := "I am: " ++ name ++ "\n"
            ++ ("Requests: " ++ Itoa (wrapInt bits (counter + 1)) ++ "\n")
            ++ ("Time: " ++ tm ++ "\n") },
       wrapInt bits (counter + 1)) := by
  unfold echoString
  simp only [hp, ne_eq, not_true_eq_false, if_false, criticalSection]
  simp [ResponseWriter.Write, ResponseWriter.Fprintln, ResponseWriter.WriteHeader,
    ResponseWriter.setHeader, ResponseWriter.fresh, StatusOK, returned]

/-- The calls from a counter value `k` that leaves room for all of them: the values
are `k+1, k+2, ..`, the final counter is `k` plus the number of calls, and the call
at position `i` is the `echoString` call on the counter value `k + i`. -/
lemma echoCalls_inRange (bits : Nat) (calls : List EchoCall) :
    ∀ k : Nat, (∀ q ∈ calls, q.r.Path = "/") →
      ((k + calls.length : Nat) : Int) < 2 ^ (bits - 1) →
      (echoCalls bits calls k).1.map (fun out => out.2)
          = (List.range' (k + 1) calls.length).map (fun n : Nat => (n : Int)) ∧
      (echoCalls bits calls k).2 = ((k + calls.length : Nat) : Int) ∧
      (∀ (i : Nat) (q : EchoCall), calls.get? i = some q →
        (echoCalls bits calls k).1.get? i =
          some (echoString bits (some q.name) q.tm ResponseWriter.fresh q.r ((k + i : Nat) : Int))) := by
  induction calls with
  | nil =>
    intro k _ _
    refine ⟨rfl, rfl, ?_⟩
    intro i q h
    simp at h
  | cons q0 calls ih =>
    intro k hpath hlen
    have hp0 : q0.r.Path = "/" := hpath q0 (List.mem_cons_self _ _)
    have hrest : ∀ q ∈ calls, q.r.Path = "/" := fun q hq => hpath q (List.mem_cons_of_mem _ hq)
    have hlen' : ((k + (calls.length + 1) : Nat) : Int) < 2 ^ (bits - 1) := by
      simpa using hlen
    have hb : 1 ≤ bits := by
      by_contra hcon
      have hz : bits = 0 := by omega
      subst hz
      simp at hlen'
      omega
    have hw : wrapInt bits ((k : Int) + 1) = ((k + 1 : Nat) : Int) := by
      rw [wrapInt_of_inRange bits _ (by omega) (by push_cast at hlen' ⊢; omega) hb]
      push_cast
      rfl
    have hstep : (echoString bits (some q0.name) q0.tm ResponseWriter.fresh q0.r (k : Int)).2
        = ((k + 1 : Nat) : Int) := by
      rw [echoString_root bits _ _ _ _ hp0]
      exact hw
    obtain ⟨ih1, ih2, ih3⟩ := ih (k + 1) hrest (by
      have : k + 1 + calls.length = k + (calls.length + 1) := by omega
      rw [this]; exact hlen')
    have hunf : echoCalls bits (q0 :: calls) (k : Int) =
        (echoString bits (some q0.name) q0.tm ResponseWriter.fresh q0.r (k : Int)
            :: (echoCalls bits calls ((k + 1 : Nat) : Int)).1,
          (echoCalls bits calls ((k + 1 : Nat) : Int)).2) := by
      simp only [echoCalls]
      rw [hstep]
    rw [hunf]
    refine ⟨?_, ?_, ?_⟩
    · simp only [List.map_cons, List.length_cons, List.range'_succ]
      rw [ih1, hstep]
    · simp only [List.length_cons]
      rw [ih2]
      congr 1
      omega
    · intro i q h
      cases i with
      | zero =>
        simp only [List.get?] at h
        have hq : q0 = q := Option.some.inj h
        subst hq
        rfl
      | succ i =>
        simp only [List.get?] at h ⊢
        rw [ih3 i q h]
        congr 3
        omega

/-- The largest reported value of calls whose values are `k+1, k+2, ..`, taken
from `k`, is `k` plus their number. -/
lemma foldl_max_range (outs : List (HandlerResult × Int)) :
    ∀ k : Nat, outs.map (fun out => out.2)
        = (List.range' (k + 1) outs.length).map (fun n : Nat => (n : Int)) →
      outs.foldl (fun m out => max m out.2) (k : Int) = ((k + outs.length : Nat) : Int) := by
  induction outs with
  | nil => intro k _; rfl
  | cons out outs ih =>
    intro k h
    simp only [List.map_cons, List.length_cons, List.range'_succ, List.cons.injEq] at h
    obtain ⟨h1, h2⟩ := h
    simp only [List.foldl_cons, h1]
    have hm : max (k : Int) ((k + 1 : Nat) : Int) = ((k + 1 : Nat) : Int) := by
      apply max_eq_right
      push_cast
      omega
    rw [hm, ih (k + 1) h2]
    simp only [List.length_cons]
    congr 1
    omega

/-- The final counter of calls for `/` is the wrapped sum of the start value and the
number of calls. -/
lemma echoCalls_final (bits : Nat) (calls : List EchoCall) :
    ∀ c : Int, (∀ q ∈ calls, q.r.Path = "/") →
      (echoCalls bits calls (wrapInt bits c)).2 = wrapInt bits (c + (calls.length : Int)) := by
  induction calls with
  | nil => intro c _; simp [echoCalls]
  | cons q0 calls ih =>
    intro c hpath
    have hp0 : q0.r.Path = "/" := hpath q0 (List.mem_cons_self _ _)
    have hrest : ∀ q ∈ calls, q.r.Path = "/" := fun q hq => hpath q (List.mem_cons_of_mem _ hq)
    have hstep : (echoString bits (some q0.name) q0.tm ResponseWriter.fresh q0.r
        (wrapInt bits c)).2 = wrapInt bits (c + 1) := by
      rw [echoString_root bits _ _ _ _ hp0]
      exact wrapInt_add_wrapInt bits c 1
    simp only [echoCalls]
    rw [hstep, ih (c + 1) hrest]
    congr 1
    simp only [List.length_cons]
    push_cast
    ring

/-- C6, as amended: when the calls of `echoString` for the path `/` pass through the
guarded section in the order of `calls`, starting from the counter 0, and their
number is below the largest `int` (`2 ^ (bits - 1)`), then the values reported are
`1, 2, .., calls.length` in that order, each once; the call at position `i` answers
200 with the line `Requests: i+1`, the counter value right after its own increment;
the final counter and the largest reported value are both `calls.length`. -/
theorem echoCalls_report_one_to_length (bits : Nat) (calls : List EchoCall)
    (hpath : ∀ q ∈ calls, q.r.Path = "/")
    (hlen : (calls.length : Int) < 2 ^ (bits - 1)) :
    (echoCalls bits calls 0).1.map (fun out => out.2)
      = (List.range' 1 calls.length).map (fun n : Nat => (n : Int)) ∧
    (∀ (i : Nat) (q : EchoCall), calls.get? i = some q →
      (echoCalls bits calls 0).1.get? i =
        some (returned
          { header := [("X-Content-Type-Options", "nosniff"),
                       ("Content-Type", "text/plain; charset=utf-8")],
            status := some 200,
            body := "I am: " ++ q.name ++ "\n"
              ++ ("Requests: " ++ Itoa ((i : Int) + 1) ++ "\n")
              ++ ("Time: " ++ q.tm ++ "\n") },
          (i : Int) + 1)) ∧
    (echoCalls bits calls 0).2 = (calls.length : Int) ∧
    maxReported (echoCalls bits calls 0).1 = (calls.length : Int) := by
  have hlen0 : ((0 + calls.length : Nat) : Int) < 2 ^ (bits - 1) := by simpa using hlen
  obtain ⟨h1, h2, h3⟩ := echoCalls_inRange bits calls 0 hpath hlen0
  have h1' : (echoCalls bits calls 0).1.map (fun out => out.2)
      = (List.range' 1 calls.length).map (fun n : Nat => (n : Int)) := by
    simpa using h1
  have hlenOuts : (echoCalls bits calls 0).1.length = calls.length := by
    have := congrArg List.length h1'
    simpa using this
  refine ⟨h1', ?_, ?_, ?_⟩
  · intro i q hq
    have hi : i < calls.length := by
      by_contra hcon
      have : calls.get? i = none := List.get?_eq_none.mpr (by omega)
      rw [this] at hq
      exact absurd hq (by simp)
    have hb : 1 ≤ bits := by
      by_contra hcon
      have hz : bits = 0 := by omega
      subst hz
      simp at hlen
      omega
    have hq3 := h3 i q hq
    have hcast : (((0 + i : Nat)) : Int) = (i : Int) := by simp
    have hq3' : (echoCalls bits calls 0).1.get? i =
        some (echoString bits (some q.name) q.tm ResponseWriter.fresh q.r (i : Int)) := by
      rw [← hcast]
      simpa using hq3
    rw [hq3', echoString_root bits _ _ _ _ (hpath q (List.get?_mem hq)),
      wrapInt_of_inRange bits _ (by omega) (by omega) hb]
  · simpa using h2
  · have hm := foldl_max_range (echoCalls bits calls 0).1 0 (by rw [hlenOuts]; simpa using h1')
    unfold maxReported
    rw [hlenOuts] at hm
    simpa using hm

/-- C6 as amended, on three calls with a 64-bit `int`: the final counter and the
largest reported value are 3. -/
theorem echoCalls_report_one_to_length_witness :
    (echoCalls 64 [⟨⟨"GET", "/", []⟩, "pod-a", "t0"⟩, ⟨⟨"POST", "/", []⟩, "pod-a", "t1"⟩,
      ⟨⟨"GET", "/", []⟩, "pod-a", "t2"⟩] 0).2 = 3 ∧
    maxReported (echoCalls 64 [⟨⟨"GET", "/", []⟩, "pod-a", "t0"⟩,
      ⟨⟨"POST", "/", []⟩, "pod-a", "t1"⟩, ⟨⟨"GET", "/", []⟩, "pod-a", "t2"⟩] 0).1 = 3 := by
  have h := echoCalls_report_one_to_length 64
    [⟨⟨"GET", "/", []⟩, "pod-a", "t0"⟩, ⟨⟨"POST", "/", []⟩, "pod-a", "t1"⟩,
      ⟨⟨"GET", "/", []⟩, "pod-a", "t2"⟩]
    (by
      intro q hq
      simp only [List.mem_cons, List.mem_singleton, List.not_mem_nil, or_false] at hq
      rcases hq with rfl | rfl | rfl <;> rfl)
    (by norm_num)
  exact ⟨h.2.2.1, h.2.2.2⟩

/-- C6 as stated fails for a 64-bit `int` at `2 ^ 63` calls: the counter wraps, the
final counter is `-2 ^ 63` and not the number of calls. -/
theorem echoCalls_counter_wraps :
    (echoCalls 64 (List.replicate (2 ^ 63) ⟨⟨"GET", "/", []⟩, "pod-a", "t0"⟩) 0).2
      = -9223372036854775808 ∧
    (echoCalls 64 (List.replicate (2 ^ 63) ⟨⟨"GET", "/", []⟩, "pod-a", "t0"⟩) 0).2
      ≠ ((List.replicate (2 ^ 63) (⟨⟨"GET", "/", []⟩, "pod-a", "t0"⟩ : EchoCall)).length : Int) := by
  have h0 : wrapInt 64 0 = 0 := by norm_num [wrapInt]
  have h := echoCalls_final 64
    (List.replicate (2 ^ 63) (⟨⟨"GET", "/", []⟩, "pod-a", "t0"⟩ : EchoCall)) 0
    (fun q hq => by rw [List.eq_of_mem_replicate hq])
  rw [h0, List.length_replicate] at h
  have hv : wrapInt 64 (0 + ((2 ^ 63 : Nat) : Int)) = -9223372036854775808 := by
    norm_num [wrapInt]
  rw [hv] at h
  refine ⟨h, ?_⟩
  rw [h, List.length_replicate]
  norm_num

/-- C9, as amended: when `os.Hostname()` succeeds, `echoString` answers 404 and
leaves the counter as it is for every path other than `/`, and answers 200 for the
path `/`; when `os.Hostname()` fails it panics before it writes anything, and the
counter is left as it is. -/
theorem echoString_status (bits : Nat) (hostname : Option String) (tm : String)
    (r : Request) (counter : Int) :
    (∀ name : String, hostname = some name → r.Path ≠ "/" →
      (echoString bits hostname tm ResponseWriter.fresh r counter).1.w.status = some 404 ∧
      (echoString bits hostname tm ResponseWriter.fresh r counter).1.panicked = false ∧
      (echoString bits hostname tm ResponseWriter.fresh r counter).2 = counter) ∧
    (∀ name : String, hostname = some name → r.Path = "/" →
      (echoString bits hostname tm ResponseWriter.fresh r counter).1.w.status = some 200 ∧
      (echoString bits hostname tm ResponseWriter.fresh r counter).1.panicked = false) ∧
    (hostname = none →
      (echoString bits hostname tm ResponseWriter.fresh r counter).1.w = ResponseWriter.fresh ∧
      (echoString bits hostname tm ResponseWriter.fresh r counter).1.panicked = true ∧
      (echoString bits hostname tm ResponseWriter.fresh r counter).2 = counter) := by
  refine ⟨?_, ?_, ?_⟩
  · intro name hn hp
    subst hn
    have hres : echoString bits (some name) tm ResponseWriter.fresh r counter =
        (returned (httpError ResponseWriter.fresh (StatusText StatusNotFound) StatusNotFound),
          counter) := by
      unfold echoString
      exact if_pos hp
    rw [hres]
    exact ⟨rfl, rfl, rfl⟩
  · intro name hn hp
    subst hn
    rw [echoString_root bits name tm r counter hp]
    exact ⟨rfl, rfl⟩
  · intro hn
    subst hn
    exact ⟨rfl, rfl, rfl⟩

/-- C9 as amended, on concrete requests: with a hostname `/missing` is answered 404
and not counted, `/` is answered 200. -/
theorem echoString_status_witness :
    ((echoString 64 (some "pod-a") "t0" ResponseWriter.fresh ⟨"GET", "/missing", []⟩ 7).1.w.status
        = some 404 ∧
      (echoString 64 (some "pod-a") "t0" ResponseWriter.fresh ⟨"GET", "/missing", []⟩ 7).2 = 7) ∧
    (echoString 64 (some "pod-a") "t0" ResponseWriter.fresh ⟨"GET", "/", []⟩ 7).1.w.status
        = some 200 :=
  ⟨⟨((echoString_status 64 (some "pod-a") "t0" ⟨"GET", "/missing", []⟩ 7).1
        "pod-a" rfl (by decide)).1,
     ((echoString_status 64 (some "pod-a") "t0" ⟨"GET", "/missing", []⟩ 7).1
        "pod-a" rfl (by decide)).2.2⟩,
   ((echoString_status 64 (some "pod-a") "t0" ⟨"GET", "/", []⟩ 7).2.1 "pod-a" rfl rfl).1⟩

/-- C9 as stated fails when `os.Hostname()` returns an error: the request for
`/missing` gets no 404 and the request for `/` no 200, the handler panics with no
status written. -/
theorem echoString_hostname_error :
    (echoString 64 none "t0" ResponseWriter.fresh ⟨"GET", "/missing", []⟩ 7).1.w.status
      ≠ some 404 ∧
    (echoString 64 none "t0" ResponseWriter.fresh ⟨"GET", "/", []⟩ 7).1.w.status ≠ some 200 ∧
    (echoString 64 none "t0" ResponseWriter.fresh ⟨"GET", "/missing", []⟩ 7).1.panicked = true := by
  refine ⟨?_, ?_, rfl⟩ <;> decide

/-! ## The album listing behind the recovery wrapper -/

/-- The status after `http.Error`: the one already written, else the given code. -/
lemma httpError_status (w : ResponseWriter) (msg : String) (code : Nat) :
    (httpError w msg code).status =
      some (match w.status with
        | some c => c
        | none => code) := by
  unfold httpError ResponseWriter.Fprintln ResponseWriter.Write ResponseWriter.WriteHeader
    ResponseWriter.setHeader
  cases h : w.status <;> simp [h]

/-- The row loop keeps a status that is already written. -/
lemma scanRows_status_of_written (rows : Rows) :
    ∀ (w : ResponseWriter) (c : Nat), w.status = some c → (scanRows w rows).status = some c := by
  induction rows with
  | nil => intro w c h; exact h
  | cons row rows ih =>
    intro w c h
    cases row with
    | none =>
      apply ih
      rw [httpError_status, h]
    | some a => exact ih w c h

/-- The row loop with a failed scan ends with the status already written, else
with 500. -/
lemma scanRows_status_of_failed (rows : Rows) :
    ∀ w : ResponseWriter, none ∈ rows →
      (scanRows w rows).status =
        some (match w.status with
          | some c => c
          | none => StatusInternalServerError) := by
  induction rows with
  | nil => intro w h; simp at h
  | cons row rows ih =>
    intro w h
    cases row with
    | none =>
      show (scanRows (httpError w _ _) rows).status = _
      exact scanRows_status_of_written rows _ _ (httpError_status w _ _)
    | some a =>
      have h' : none ∈ rows := by
        rcases List.mem_cons.mp h with h1 | h1
        · exact absurd h1 (by simp)
        · exact h1
      exact ih w h'

/-- The wrapped handler never panics. -/
lemma panicRecovery_returns (h : ResponseWriter → Request → HandlerResult)
    (w : ResponseWriter) (r : Request) : (panicRecovery h w r).panicked = false := by
  unfold panicRecovery
  by_cases hp : (h w r).panicked = true
  · simp [hp, returned]
  · simp [hp]

/-- C8: a GET on `/getAlbums` (`listAlbums` behind `panicRecovery`) is answered 500
and the wrapped handler returns normally whenever a field of the database
configuration is empty, or `sql.Open` fails, or the query fails, or the scan of a
row fails; and whatever `listAlbums` does, no panic leaves the wrapped handler. -/
theorem getAlbums_failure_is_500 (database : Database) (r : Request) (d : dbDetails)
    (hget : r.Method = "GET")
    (hfail : (d.dbHost = "" ∨ d.dbName = "" ∨ d.dbPwd = "" ∨ d.dbUser = "") ∨
      database.sqlOpen (dbURL d) = none ∨
      database.sqlOpen (dbURL d) = some none ∨
      (∃ results : Rows, database.sqlOpen (dbURL d) = some (some results) ∧ none ∈ results)) :
    (panicRecovery (fun w r => listAlbums database w r d) ResponseWriter.fresh r).w.status
      = some 500 ∧
    (panicRecovery (fun w r => listAlbums database w r d) ResponseWriter.fresh r).panicked
      = false ∧
    (∀ (w : ResponseWriter) (r1 : Request),
      (panicRecovery (fun w r => listAlbums database w r d) w r1).panicked = false) := by
  refine ⟨?_, panicRecovery_returns _ _ _, fun w r1 => panicRecovery_returns _ _ _⟩
  have hget' : r.Method = MethodGet := hget
  by_cases hcfg : d.dbHost = "" ∨ d.dbName = "" ∨ d.dbPwd = "" ∨ d.dbUser = ""
  · -- the configuration check has already written 500
    have hw1 : (httpError ResponseWriter.fresh "Error while retrieving albums"
        StatusInternalServerError).status = some 500 := rfl
    unfold panicRecovery listAlbums
    simp only [if_pos hget', if_pos hcfg]
    cases hopen : database.sqlOpen (dbURL d) with
    | none =>
      simp only [panics, if_true]
      rw [returned, httpError_status, httpError_status, hw1]
    | some q =>
      cases q with
      | none =>
        simp only [panics, if_true]
        rw [returned, httpError_status, httpError_status, hw1]
      | some results =>
        simp only [returned, Bool.false_eq_true, if_false]
        exact scanRows_status_of_written results _ _ hw1
  · unfold panicRecovery listAlbums
    simp only [if_pos hget', if_neg hcfg]
    rcases hfail with hf | hf | hf | ⟨results, hf, hmem⟩
    · exact absurd hf hcfg
    · simp only [hf, panics, if_true]
      rw [returned, httpError_status, httpError_status]
      rfl
    · simp only [hf, panics, if_true]
      rw [returned, httpError_status, httpError_status]
      rfl
    · simp only [hf, returned, Bool.false_eq_true, if_false]
      rw [scanRows_status_of_failed results _ hmem]
      rfl

/-- C8, on concrete inputs: a complete configuration whose query fails, and an
unreachable database behind a configuration with an empty host, both give 500. -/
theorem getAlbums_failure_is_500_witness :
    (panicRecovery (fun w r => listAlbums ⟨fun _ => some none⟩ w r
        ⟨"db.local", "albums", "secret", "app"⟩)
      ResponseWriter.fresh ⟨"GET", "/getAlbums", []⟩).w.status = some 500 ∧
    (panicRecovery (fun w r => listAlbums ⟨fun _ => none⟩ w r ⟨"", "albums", "secret", "app"⟩)
      ResponseWriter.fresh ⟨"GET", "/getAlbums", []⟩).panicked = false :=
  ⟨(getAlbums_failure_is_500 ⟨fun _ => some none⟩ ⟨"GET", "/getAlbums", []⟩
      ⟨"db.local", "albums", "secret", "app"⟩ rfl (Or.inr (Or.inr (Or.inl rfl)))).1,
   (getAlbums_failure_is_500 ⟨fun _ => none⟩ ⟨"GET", "/getAlbums", []⟩
      ⟨"", "albums", "secret", "app"⟩ rfl (Or.inl (Or.inl rfl))).2.1⟩

/-! ## Configuration -/

/-- A successful `flag.Parse()` only adds values of defined flags, and succeeds in
the same way, adding the same values, when more flags are defined. -/
lemma flagParse_ok (F1 : List String) (args : List String) :
    ∀ (vals : List (String × String)) (pending : Option String)
      (v : List (String × String)),
      flagParse F1 vals pending args = .ok v →
      ∃ added : List (String × String), v = added ++ vals ∧
        (∀ p ∈ added, p.1 ∈ F1 ∨ pending = some p.1) ∧
        ∀ (F2 : List String) (vals2 : List (String × String)), (∀ x ∈ F1, x ∈ F2) →
          flagParse F2 vals2 pending args = .ok (added ++ vals2) := by
  induction args with
  | nil =>
    intro vals pending v h
    cases pending with
    | none =>
      simp only [flagParse, Except.ok.injEq] at h
      exact ⟨[], by simp [h], by simp, fun F2 vals2 _ => by simp [flagParse]⟩
    | some nm => simp [flagParse] at h
  | cons s rest ih =>
    intro vals pending v h
    cases pending with
    | some nm =>
      simp only [flagParse] at h
      obtain ⟨added, h1, h2, h3⟩ := ih _ _ _ h
      refine ⟨added ++ [(nm, s)], by simp [h1], ?_, ?_⟩
      · intro p hp
        rcases List.mem_append.mp hp with hp | hp
        · rcases h2 p hp with h4 | h4
          · exact Or.inl h4
          · exact absurd h4 (by simp)
        · simp only [List.mem_singleton] at hp
          subst hp
          exact Or.inr rfl
      · intro F2 vals2 hsub
        simp only [flagParse]
        rw [h3 F2 _ hsub]
        simp
    | none =>
      simp only [flagParse] at h
      cases hk : classifyArg s with
      | stop =>
        simp only [hk, Except.ok.injEq] at h
        exact ⟨[], by simp [h], by simp, fun F2 vals2 _ => by simp [flagParse, hk]⟩
      | bad => simp [hk] at h
      | flag nm value =>
        simp only [hk] at h
        by_cases hmem : nm ∈ F1
        · simp only [if_pos hmem] at h
          cases value with
          | some val =>
            simp only at h
            obtain ⟨added, h1, h2, h3⟩ := ih _ _ _ h
            refine ⟨added ++ [(nm, val)], by simp [h1], ?_, ?_⟩
            · intro p hp
              rcases List.mem_append.mp hp with hp | hp
              · exact h2 p hp
              · simp only [List.mem_singleton] at hp
                subst hp
                exact Or.inl hmem
            · intro F2 vals2 hsub
              simp only [flagParse, hk, if_pos (hsub nm hmem)]
              rw [h3 F2 _ hsub]
              simp
          | none =>
            simp only at h
            obtain ⟨added, h1, h2, h3⟩ := ih _ _ _ h
            refine ⟨added, h1, ?_, ?_⟩
            · intro p hp
              rcases h2 p hp with h4 | h4
              · exact Or.inl h4
              · left
                have : nm = p.1 := Option.some.inj h4
                rw [← this]
                exact hmem
            · intro F2 vals2 hsub
              simp only [flagParse, hk, if_pos (hsub nm hmem)]
              exact h3 F2 vals2 hsub
        · simp only [if_neg hmem] at h
          split at h <;> simp at h

/-- A flag that was never set has the default value. -/
lemma flagValue_of_not_set (vals : List (String × String)) (name : String)
    (h : ∀ p ∈ vals, p.1 ≠ name) : flagValue vals name = "" := by
  induction vals with
  | nil => rfl
  | cons p vals ih =>
    obtain ⟨k, x⟩ := p
    have hk : ¬ name = k := fun e => h (k, x) (List.mem_cons_self _ _) e.symm
    have hb : (name == k) = false := by simpa using hk
    have := ih (fun q hq => h q (List.mem_cons_of_mem _ hq))
    unfold flagValue at this ⊢
    simp only [List.lookup, hb]
    exact this

/-- Whenever `main` gets through its configuration section, the user, password,
name and port flags are all empty: `dbUser`, `dbPwd` and `dbName` are the values of
their environment variables and the port comes from `PORT` or the default. A
command line that sets one of these four flags ends `main` at the first
`flag.Parse()`. -/
theorem mainConfig_flags_unused (bits : Nat) (Getenv : String → String)
    (args : List String) (c : Config) (h : mainConfig bits Getenv args = .ok c) :
    c.d.dbUser = Getenv "DB_USER" ∧ c.d.dbPwd = Getenv "DB_PASSWORD" ∧
    c.d.dbName = Getenv "DB_NAME" ∧ portFromEnv bits (Getenv "PORT") = .ok c.port := by
  unfold mainConfig at h
  cases h1 : flagParse ["db-host"] [] none args with
  | error e => simp [h1, bind, Except.bind] at h
  | ok v1 =>
    obtain ⟨added, ha, hkeys, hmore⟩ := flagParse_ok ["db-host"] args [] none v1 h1
    have hk : ∀ p ∈ added, p.1 = "db-host" := by
      intro p hp
      rcases hkeys p hp with h2 | h2
      · simpa using h2
      · exact absurd h2 (by simp)
    have hv1 : v1 = added := by simpa using ha
    subst hv1
    have hunset : ∀ (l : List (String × String)) (name : String),
        (∀ p ∈ l, p.1 = "db-host") → name ≠ "db-host" → flagValue l name = "" := by
      intro l name hl hn
      exact flagValue_of_not_set l name (fun p hp e => hn (e ▸ hl p hp))
    have e2 := hmore ["db-host", "db-user"] v1 (by simp)
    have e3 := hmore ["db-host", "db-user", "db-password"] (v1 ++ v1) (by simp)
    have e4 := hmore ["db-host", "db-user", "db-password", "db-name"] (v1 ++ (v1 ++ v1))
      (by simp)
    have e5 := hmore ["db-host", "db-user", "db-password", "db-name", "port"]
      (v1 ++ (v1 ++ (v1 ++ v1))) (by simp)
    have k2 : ∀ p ∈ v1 ++ v1, p.1 = "db-host" := by
      intro p hp
      rcases List.mem_append.mp hp with hp | hp <;> exact hk p hp
    have k3 : ∀ p ∈ v1 ++ (v1 ++ v1), p.1 = "db-host" := by
      intro p hp
      rcases List.mem_append.mp hp with hp | hp
      · exact hk p hp
      · exact k2 p hp
    have k4 : ∀ p ∈ v1 ++ (v1 ++ (v1 ++ v1)), p.1 = "db-host" := by
      intro p hp
      rcases List.mem_append.mp hp with hp | hp
      · exact hk p hp
      · exact k3 p hp
    have k5 : ∀ p ∈ v1 ++ (v1 ++ (v1 ++ (v1 ++ v1))), p.1 = "db-host" := by
      intro p hp
      rcases List.mem_append.mp hp with hp | hp
      · exact hk p hp
      · exact k4 p hp
    have u2 := hunset _ "db-user" k2 (by decide)
    have u3 := hunset _ "db-password" k3 (by decide)
    have u4 := hunset _ "db-name" k4 (by decide)
    have u5 := hunset _ "port" k5 (by decide)
    simp only [h1, bind, Except.bind, e2, e3, e4, e5, u2, u3, u4, u5] at h
    cases hp : portFromEnv bits (Getenv "PORT") with
    | error e => simp [hp] at h
    | ok port =>
      simp only [hp, portFromFlag, ne_eq, not_true_eq_false, if_false, pure, Except.pure,
        Except.ok.injEq] at h
      subst h
      exact ⟨rfl, rfl, rfl, rfl⟩

/-- The host flag does take effect: `-db-host=db.internal` overrides `DB_HOST`, and
the other settings come from the environment and the default port. -/
theorem mainConfig_db_host_flag :
    mainConfig 64 (envOf [("DB_HOST", "db.local"), ("DB_USER", "app"),
        ("DB_PASSWORD", "secret"), ("DB_NAME", "albums")]) ["-db-host=db.internal"]
      = Except.ok { d := { dbHost := "db.internal", dbName := "albums", dbPwd := "secret",
                           dbUser := "app" },
                    port := 8081 } :=
  rfl


/-- C7: with `DB_NAME=albums`, `DB_PASSWORD=secret` and the name flag holding
`music`, the assignments of `main` leave `dbName` at `albums` and put `music` into
`dbPwd`; and a command line that carries `-db-name=music` ends `main` with exit
status 2 at the first `flag.Parse()`, where only `db-host` is defined. -/
theorem db_name_flag_does_not_set_dbName :
    resolveDb (envOf [("DB_HOST", "db.local"), ("DB_USER", "app"),
        ("DB_PASSWORD", "secret"), ("DB_NAME", "albums")])
      { dbHflag := "", dbUflag := "", dbPflag := "", dbNflag := "music" }
      = { dbHost := "db.local", dbName := "albums", dbPwd := "music", dbUser := "app" } ∧
    mainConfig 64 (envOf [("DB_HOST", "db.local"), ("DB_USER", "app"),
        ("DB_PASSWORD", "secret"), ("DB_NAME", "albums")]) ["-db-name=music"]
      = Except.error (Abort.exit 2) :=
  ⟨rfl, rfl⟩

/-- The parse with fewer flags defined, against a successful parse of the same
arguments with more flags defined (none of them named `help` or `h`): it either
succeeds adding the same values, all of flags of the smaller set, or exits with
status 2. -/
lemma flagParse_fewer (F1 F2 : List String)
    (hhelp : "help" ∉ F2 ∧ "h" ∉ F2) (args : List String) :
    ∀ (vals1 vals2 : List (String × String)) (pending : Option String)
      (v2 : List (String × String)),
      (∀ nm : String, pending = some nm → nm ∈ F1) →
      flagParse F2 vals2 pending args = .ok v2 →
      (∃ added : List (String × String), v2 = added ++ vals2 ∧
          (∀ p ∈ added, p.1 ∈ F1) ∧
          flagParse F1 vals1 pending args = .ok (added ++ vals1)) ∨
        flagParse F1 vals1 pending args = .error (Abort.exit 2) := by
  induction args with
  | nil =>
    intro vals1 vals2 pending v2 _ h
    cases pending with
    | none =>
      simp only [flagParse, Except.ok.injEq] at h
      exact Or.inl ⟨[], by simp [h], by simp, by simp [flagParse]⟩
    | some nm => simp [flagParse] at h
  | cons s rest ih =>
    intro vals1 vals2 pending v2 hpend h
    cases pending with
    | some nm =>
      simp only [flagParse] at h
      rcases ih ((nm, s) :: vals1) _ none _ (by simp) h with ⟨added, h1, h2, h3⟩ | h3
      · refine Or.inl ⟨added ++ [(nm, s)], by simp [h1], ?_, ?_⟩
        · intro p hp
          rcases List.mem_append.mp hp with hp | hp
          · exact h2 p hp
          · simp only [List.mem_singleton] at hp
            subst hp
            exact hpend nm rfl
        · simp only [flagParse]
          rw [h3]
          simp
      · right
        simp only [flagParse]
        exact h3
    | none =>
      simp only [flagParse] at h
      cases hk : classifyArg s with
      | stop =>
        simp only [hk, Except.ok.injEq] at h
        exact Or.inl ⟨[], by simp [h], by simp, by simp [flagParse, hk]⟩
      | bad => simp [hk] at h
      | flag nm value =>
        simp only [hk] at h
        by_cases hmem2 : nm ∈ F2
        · simp only [if_pos hmem2] at h
          by_cases hmem1 : nm ∈ F1
          · cases value with
            | some val =>
              simp only at h
              rcases ih ((nm, val) :: vals1) _ none _ (by simp) h with ⟨added, h1, h2, h3⟩ | h3
              · refine Or.inl ⟨added ++ [(nm, val)], by simp [h1], ?_, ?_⟩
                · intro p hp
                  rcases List.mem_append.mp hp with hp | hp
                  · exact h2 p hp
                  · simp only [List.mem_singleton] at hp
                    subst hp
                    exact hmem1
                · simp only [flagParse, hk, if_pos hmem1]
                  rw [h3]
                  simp
              · right
                simp only [flagParse, hk, if_pos hmem1]
                exact h3
            | none =>
              simp only at h
              rcases ih vals1 _ (some nm) _
                (by intro x hx; rw [← Option.some.inj hx]; exact hmem1) h
                with ⟨added, h1, h2, h3⟩ | h3
              · refine Or.inl ⟨added, h1, h2, ?_⟩
                simp only [flagParse, hk, if_pos hmem1]
                exact h3
              · right
                simp only [flagParse, hk, if_pos hmem1]
                exact h3
          · right
            have hne : ¬ (nm = "help" ∨ nm = "h") := by
              rintro (e | e)
              · exact hhelp.1 (e ▸ hmem2)
              · exact hhelp.2 (e ▸ hmem2)
            simp only [flagParse, hk, if_neg hmem1, if_neg hne]
        · simp only [if_neg hmem2] at h
          split at h <;> simp at h

/-- Whenever the command line, read with all five flags defined, gives a non-empty
value to a flag other than `db-host`, `main` ends with exit status 2 at its first
`flag.Parse()`. -/
theorem mainConfig_exits_when_other_flag_set (bits : Nat) (Getenv : String → String)
    (args : List String) (vals : List (String × String)) (name : String)
    (hfull : flagParse ["db-host", "db-user", "db-password", "db-name", "port"] [] none args
      = .ok vals)
    (hname : name ≠ "db-host") (hset : flagValue vals name ≠ "") :
    mainConfig bits Getenv args = .error (Abort.exit 2) := by
  rcases flagParse_fewer ["db-host"] ["db-host", "db-user", "db-password", "db-name", "port"]
      (by decide) args [] [] none vals (by simp) hfull with ⟨added, h1, h2, _⟩ | h3
  · exfalso
    apply hset
    apply flagValue_of_not_set
    intro p hp e
    have hp' : p ∈ added := by simpa [h1] using hp
    have := h2 p hp'
    simp only [List.mem_singleton] at this
    exact hname (e ▸ this)
  · unfold mainConfig
    simp [h3, bind, Except.bind]

/-- C10: on a command line where the name flag is non-empty (read with all five
flags defined it holds `music`), `main` builds no `dbDetails` at all: it ends with
exit status 2 at the first `flag.Parse()`, whether the flag comes with the password
flag, after the host flag with its value in the next argument, or with two
dashes. -/
theorem db_name_flag_ends_main :
    flagParse ["db-host", "db-user", "db-password", "db-name", "port"] [] none
        ["-db-password=hunter2", "-db-name=music"]
      = Except.ok [("db-name", "music"), ("db-password", "hunter2")] ∧
    mainConfig 64 (envOf [("DB_PASSWORD", "secret"), ("DB_NAME", "albums")])
        ["-db-password=hunter2", "-db-name=music"] = Except.error (Abort.exit 2) ∧
    mainConfig 64 (envOf [("DB_PASSWORD", "secret"), ("DB_NAME", "albums")])
        ["-db-host=db.internal", "-db-name", "music"] = Except.error (Abort.exit 2) ∧
    mainConfig 64 (envOf [("DB_PASSWORD", "secret"), ("DB_NAME", "albums")])
        ["--db-name=music"] = Except.error (Abort.exit 2) :=
  ⟨rfl, rfl, rfl, rfl⟩

end GoApi
